import Mathlib

/-!
Verification of the symptom-canonicalization / knowledge-graph matching /
hybrid score-fusion pipeline.

The development shallowly embeds three modules:

* `ReasoningEngine.fuse_results` (src/reasoning/reasoning_engine.py);
* `RDFDiseaseFinder` (src/reasoning/rdf_disease_finder.py): label resolution,
  symptom lookup and the similarity search `find_nearest_diseases`;
* `SymptomCanonicalizer.canonicalize_one` (src/synonyms/SynonymsCanon.py).

Python floats are modelled as rationals (the claims under scrutiny concern
control flow and exact comparisons, not rounding); Python sets of URIRefs as
`Finset String`; Python lists as `List`.  String munging helpers
(`lower`, `strip`, substring tests, lexicographic comparison) are implemented
directly on `List Char` so that every definition kernel-reduces on concrete
inputs; they model the CPython behaviour on the ASCII strings the claims
exercise.
-/

/-! ### String helpers (shared) -/

/-- Models Python `str.lower()` (ASCII portion). -/
def lowerStr (s : String) : String :=
  String.mk (s.toList.map Char.toLower)

/-- Models Python `str.strip()`: drop whitespace at both ends. -/
def trimChars (l : List Char) : List Char :=
  ((l.dropWhile Char.isWhitespace).reverse.dropWhile Char.isWhitespace).reverse

/-- Boolean test that `small` is a prefix of `big`. -/
def isPrefixList : List Char → List Char → Bool
  | [], _ => true
  | _ :: _, [] => false
  | a :: as, b :: bs => a == b && isPrefixList as bs

/-- Boolean substring test (`small` occurs contiguously in `big`),
modelling Python `small in big` on strings. -/
def isSubstrList (small big : List Char) : Bool :=
  match big with
  | [] => small.isEmpty
  | _ :: rest => isPrefixList small big || isSubstrList small rest

/-- Python `a in b` on strings. -/
def strIn (a b : String) : Bool :=
  isSubstrList a.toList b.toList

/-- Strict code-point lexicographic order on character lists: the order CPython
uses to compare strings. -/
def charListLt : List Char → List Char → Bool
  | [], [] => false
  | [], _ :: _ => true
  | _ :: _, [] => false
  | a :: as, b :: bs => a < b || (a == b && charListLt as bs)

/-- Python `a <= b` on strings (code-point lexicographic). -/
def strLe (a b : String) : Bool :=
  charListLt a.data b.data || a.data == b.data

/-- Collapse every maximal run of characters satisfying `p` into the single
character `r`; the flag says whether we are inside such a run.  Models a
regex substitution `p+` ↦ `r`. -/
def collapseRuns (p : Char → Bool) (r : Char) : Bool → List Char → List Char
  | _, [] => []
  | inRun, c :: rest =>
    if p c then
      (if inRun then [] else [r]) ++ collapseRuns p r true rest
    else
      c :: collapseRuns p r false rest

/-! ### ReasoningEngine (src/reasoning/reasoning_engine.py) -/

/-- The `ml_prediction` dict handed to `fuse_results`: keys
`disease_id` and `score`. -/
structure MLPrediction where
  disease_id : String
  score : ℚ
deriving DecidableEq

/-- An entry of the `rdf_candidates` list, restricted to the keys
`fuse_results` reads: `disease_name` and `similarity_score`. -/
structure RDFCandidate where
  disease_name : String
  similarity_score : ℚ
deriving DecidableEq

/-- The dict `fuse_results` returns. -/
structure FuseResult where
  disease : String
  original_score : ℚ
  final_score : ℚ
  reasoning : List String
  is_fallback : Bool
deriving DecidableEq

/-- Reasoning-trace entry appended when the knowledge graph agrees. -/
def kg_agree_msg : String := "Knowledge Graph agrees (Bonus +20%)"

/-- Reasoning-trace entry appended when the knowledge graph disagrees. -/
def kg_disagree_msg : String := "Knowledge Graph suggests different diseases"

/-- Reasoning-trace entry appended when the user has a primary symptom. -/
def has_primary_msg : String := "User has primary symptoms"

/-- Reasoning-trace entry for the missing-primary-symptom penalty; the
expected primary symptoms are interpolated joined by a comma, exactly as the
source f-string builds it. -/
def missing_primary_msg (disease : String) (primary_symptoms : List String) : String :=
  "Missing primary symptoms for " ++ disease ++ " (Expected: " ++
    String.intercalate ", " primary_symptoms ++ ") (Penalty -50%)"

/-- Reasoning-trace entry for the low-confidence fallback.  The source
interpolates the running score rendered as a percentage into this message;
that numeric rendering is elided here (no claim concerns it). -/
def fallback_msg : String :=
  "ML confidence too low. Falling back to top Knowledge Graph result."

/-- Line 34: `any(d['disease_name'] == ml_prediction['disease_id'] for d in rdf_candidates)`. -/
def kg_agrees (ml : MLPrediction) (rdf_candidates : List RDFCandidate) : Bool :=
  rdf_candidates.any (fun d => d.disease_name == ml.disease_id)

/-- Step 1 of `fuse_results` (lines 33-39): the agreement check.  Returns the
running score and reasoning trace after the step. -/
def agreementStep (ml : MLPrediction) (rdf_candidates : List RDFCandidate) :
    ℚ × List String :=
  if kg_agrees ml rdf_candidates then
    (min 1 (ml.score + 1/5), [kg_agree_msg])
  else
    (ml.score, [kg_disagree_msg])

/-- Step 2 of `fuse_results` (lines 41-59): the primary-symptom sanity check.
`rdf_finder` is modelled by its only use here, the method
`get_primary_symptoms : disease_id ↦ list of primary-symptom labels`;
`none` models calling `fuse_results` with `rdf_finder=None` (the Python
guard `if rdf_finder:`). -/
def sanityStep (ml : MLPrediction) (user_symptoms : List String)
    (rdf_finder : Option (String → List String)) (state : ℚ × List String) :
    ℚ × List String :=
  match rdf_finder with
  | none => state
  | some get_primary_symptoms =>
    let primary_symptoms := get_primary_symptoms ml.disease_id
    let user_sym_norm := user_symptoms.map lowerStr
    let prim_sym_norm := primary_symptoms.map lowerStr
    if primary_symptoms.isEmpty then
      state
    else if prim_sym_norm.any (fun s => user_sym_norm.contains s) then
      (state.1, state.2 ++ [has_primary_msg])
    else
      (state.1 * (1/2), state.2 ++ [missing_primary_msg ml.disease_id primary_symptoms])

/-- Step 3 of `fuse_results` (lines 61-72): the low-confidence fallback, and
assembly of the returned dict. -/
def fallbackStep (ml : MLPrediction) (rdf_candidates : List RDFCandidate)
    (state : ℚ × List String) : FuseResult :=
  match rdf_candidates with
  | top_rdf :: _ =>
    if state.1 < 2/5 then
      { disease := top_rdf.disease_name
        original_score := ml.score
        final_score := top_rdf.similarity_score
        reasoning := state.2 ++ [fallback_msg]
        is_fallback := true }
    else
      { disease := ml.disease_id
        original_score := ml.score
        final_score := state.1
        reasoning := state.2
        is_fallback := false }
  | [] =>
    { disease := ml.disease_id
      original_score := ml.score
      final_score := state.1
      reasoning := state.2
      is_fallback := false }

/-- `ReasoningEngine.fuse_results` (lines 9-74): agreement bonus, then
primary-symptom sanity check, then low-confidence fallback. -/
def fuse_results (ml : MLPrediction) (rdf_candidates : List RDFCandidate)
    (user_symptoms : List String)
    (rdf_finder : Option (String → List String) := none) : FuseResult :=
  fallbackStep ml rdf_candidates
    (sanityStep ml user_symptoms rdf_finder (agreementStep ml rdf_candidates))

/-! ### Helper lemmas about `fuse_results` -/

lemma kg_agrees_iff (ml : MLPrediction) (cands : List RDFCandidate) :
    kg_agrees ml cands = true ↔ ∃ c ∈ cands, c.disease_name = ml.disease_id := by
  simp [kg_agrees, List.any_eq_true]

lemma missing_primary_msg_take_two (d : String) (e : List String) :
    (missing_primary_msg d e).data.take 2 = ['M', 'i'] := rfl

lemma ne_missing_primary_msg (m : String) (hm : m.data.take 2 ≠ ['M', 'i'])
    (d : String) (e : List String) : m ≠ missing_primary_msg d e := fun h =>
  hm (h ▸ missing_primary_msg_take_two d e)

/-! ### Claim theorems for the fusion engine -/

/-- C1: after the agreement and sanity steps, if the running score is strictly
below 0.40 and `rdf_candidates` is non-empty, the verdict is the first
candidate's disease with that candidate's similarity score and the fallback
flag set; otherwise the classifier's disease is kept and the flag is false.
In particular `ml_prediction.score = 0.3` with no agreement, no penalty, and
top candidate Measles at 0.75 yields the verdict (Measles, 0.75, fallback). -/
theorem fuse_results_fallback (ml : MLPrediction) (rdf_candidates : List RDFCandidate)
    (user_symptoms : List String) (rdf_finder : Option (String → List String)) :
    ((sanityStep ml user_symptoms rdf_finder (agreementStep ml rdf_candidates)).1 < 2/5 →
      ∀ top rest, rdf_candidates = top :: rest →
        (fuse_results ml rdf_candidates user_symptoms rdf_finder).disease = top.disease_name ∧
        (fuse_results ml rdf_candidates user_symptoms rdf_finder).final_score =
          top.similarity_score ∧
        (fuse_results ml rdf_candidates user_symptoms rdf_finder).is_fallback = true) ∧
    (¬((sanityStep ml user_symptoms rdf_finder (agreementStep ml rdf_candidates)).1 < 2/5 ∧
        rdf_candidates ≠ []) →
      (fuse_results ml rdf_candidates user_symptoms rdf_finder).disease = ml.disease_id ∧
      (fuse_results ml rdf_candidates user_symptoms rdf_finder).is_fallback = false) ∧
    fuse_results ⟨"Flu", 3/10⟩ [⟨"Measles", 3/4⟩] [] none =
      ⟨"Measles", 3/10, 3/4, [kg_disagree_msg, fallback_msg], true⟩ := by
  refine ⟨?_, ?_, ?_⟩
  · intro hlt top rest hc
    subst hc
    simp [fuse_results, fallbackStep, hlt]
  · intro hnot
    cases h : rdf_candidates with
    | nil => simp [fuse_results, fallbackStep, h]
    | cons top rest =>
      rw [h] at hnot
      push_neg at hnot
      have hge : ¬((sanityStep ml user_symptoms rdf_finder
          (agreementStep ml (top :: rest))).1 < 2/5) := fun hl => by
        simpa using hnot hl
      simp [fuse_results, fallbackStep, h, hge]
  · simp [fuse_results, fallbackStep, sanityStep, agreementStep, kg_agrees]
    norm_num

/-- Closed witness for `fuse_results_fallback`. -/
theorem fuse_results_fallback_witness :
    (fuse_results ⟨"Flu", 3/10⟩ [⟨"Measles", 3/4⟩] ["cough"] none).disease = "Measles" ∧
    (fuse_results ⟨"Flu", 3/10⟩ [⟨"Measles", 3/4⟩] ["cough"] none).final_score = 3/4 ∧
    (fuse_results ⟨"Flu", 3/10⟩ [⟨"Measles", 3/4⟩] ["cough"] none).is_fallback = true :=
  (fuse_results_fallback ⟨"Flu", 3/10⟩ [⟨"Measles", 3/4⟩] ["cough"] none).1
    (by simp [sanityStep, agreementStep, kg_agrees]; norm_num)
    ⟨"Measles", 3/4⟩ [] rfl

/-- C2: the agreement step adds exactly 0.20 to the running score, capped at
1.0, exactly when the classifier's disease appears among the candidates, and
leaves the score unchanged otherwise; base 0.5 with agreement gives 0.70, and
base 0.95 with agreement gives 1.0, not 1.15. -/
theorem fuse_results_agreement_bonus (ml : MLPrediction) (cands : List RDFCandidate)
    [Decidable (∃ c ∈ cands, c.disease_name = ml.disease_id)] :
    (agreementStep ml cands).1 =
      (if ∃ c ∈ cands, c.disease_name = ml.disease_id then min 1 (ml.score + 1/5)
       else ml.score) ∧
    ((∃ c ∈ cands, c.disease_name = ml.disease_id) → ml.score + 1/5 ≤ 1 →
      (agreementStep ml cands).1 = ml.score + 1/5) ∧
    ((∃ c ∈ cands, c.disease_name = ml.disease_id) → (agreementStep ml cands).1 ≤ 1) ∧
    (agreementStep ⟨"Flu", 1/2⟩ [⟨"Flu", 0⟩]).1 = 7/10 ∧
    (agreementStep ⟨"Flu", 19/20⟩ [⟨"Flu", 0⟩]).1 = 1 := by
  have hiff := kg_agrees_iff ml cands
  refine ⟨?_, ?_, ?_, ?_, ?_⟩
  · by_cases hk : kg_agrees ml cands
    · rw [if_pos (hiff.mp hk)]
      simp [agreementStep, hk]
    · rw [if_neg (fun hx => hk (hiff.mpr hx))]
      simp [agreementStep, hk]
  · intro hx hle
    have hk : kg_agrees ml cands = true := hiff.mpr hx
    rw [show agreementStep ml cands = (min 1 (ml.score + 1/5), [kg_agree_msg]) by
      simp [agreementStep, hk]]
    exact min_eq_right hle
  · intro hx
    have hk : kg_agrees ml cands = true := hiff.mpr hx
    simp [agreementStep, hk]
  · simp [agreementStep, kg_agrees]
    norm_num
  · simp [agreementStep, kg_agrees]
    norm_num

/-- Closed witness for `fuse_results_agreement_bonus`. -/
theorem fuse_results_agreement_bonus_witness :
    (agreementStep ⟨"Flu", 1/2⟩ [⟨"Flu", 0⟩]).1 = 1/2 + 1/5 :=
  (fuse_results_agreement_bonus ⟨"Flu", 1/2⟩ [⟨"Flu", 0⟩]).2.1
    ⟨⟨"Flu", 0⟩, by simp⟩ (by norm_num)

/-- C3: in the sanity step, a non-empty primary-symptom set sharing no member
(after lowercasing) with the query halves the score and appends the trace
entry naming all expected primary symptoms; a shared member appends the
confirmation entry with the score unchanged; an empty primary-symptom set
changes nothing. -/
theorem fuse_results_sanity_check (ml : MLPrediction) (user_symptoms : List String)
    (get_primary : String → List String) (state : ℚ × List String) :
    (get_primary ml.disease_id ≠ [] →
      (∀ p ∈ get_primary ml.disease_id, lowerStr p ∉ user_symptoms.map lowerStr) →
      sanityStep ml user_symptoms (some get_primary) state =
        (state.1 * (1/2),
         state.2 ++ [missing_primary_msg ml.disease_id (get_primary ml.disease_id)])) ∧
    (get_primary ml.disease_id ≠ [] →
      (∃ p ∈ get_primary ml.disease_id, lowerStr p ∈ user_symptoms.map lowerStr) →
      sanityStep ml user_symptoms (some get_primary) state =
        (state.1, state.2 ++ [has_primary_msg])) ∧
    (get_primary ml.disease_id = [] →
      sanityStep ml user_symptoms (some get_primary) state = state) := by
  refine ⟨?_, ?_, ?_⟩
  · intro hne hdisj
    have hempty : (get_primary ml.disease_id).isEmpty = false := by
      simpa [List.isEmpty_iff] using hne
    have hprop : ¬∃ x ∈ get_primary ml.disease_id, ∃ a ∈ user_symptoms,
        lowerStr a = lowerStr x := by
      rintro ⟨x, hx, a, ha, hax⟩
      exact hdisj x hx (hax ▸ List.mem_map_of_mem lowerStr ha)
    simp [sanityStep, hempty, hprop]
  · intro hne hshare
    have hempty : (get_primary ml.disease_id).isEmpty = false := by
      simpa [List.isEmpty_iff] using hne
    have hprop : ∃ x ∈ get_primary ml.disease_id, ∃ a ∈ user_symptoms,
        lowerStr a = lowerStr x := by
      obtain ⟨p, hp, hmem⟩ := hshare
      obtain ⟨a, ha, haeq⟩ := List.mem_map.mp hmem
      exact ⟨p, hp, a, ha, haeq⟩
    simp [sanityStep, hempty, hprop]
  · intro hnil
    simp [sanityStep, hnil]

/-- Closed witness for `fuse_results_sanity_check`: the spec's example, a
disease with primary symptoms fever and rash queried with cough and fatigue. -/
theorem fuse_results_sanity_check_witness :
    sanityStep ⟨"Measles", 1⟩ ["cough", "fatigue"] (some fun _ => ["fever", "rash"]) (1, []) =
      (1 * (1/2), [missing_primary_msg "Measles" ["fever", "rash"]]) :=
  (fuse_results_sanity_check ⟨"Measles", 1⟩ ["cough", "fatigue"]
    (fun _ => ["fever", "rash"]) (1, [])).1 (by decide) (by decide)

/-- C4 counterexample: `fuse_results` does not clamp a classifier score that
already exceeds 1, so with input score 2 and no candidates the final score is
2, outside [0, 1]. -/
theorem fuse_results_bound_counterexample :
    ¬((fuse_results ⟨"X", 2⟩ [] [] none).final_score ≤ 1) := by
  norm_num [fuse_results, fallbackStep, sanityStep, agreementStep, kg_agrees]

/-- C4 (amended): whenever the classifier score lies in [0, 1] and every
candidate similarity score lies in [0, 1], the verdict's final score lies in
[0, 1], whichever bonuses, penalties or fallback were applied. -/
theorem fuse_results_score_bounds (ml : MLPrediction) (cands : List RDFCandidate)
    (user_symptoms : List String) (rdf_finder : Option (String → List String))
    (h0 : 0 ≤ ml.score) (h1 : ml.score ≤ 1)
    (hc : ∀ c ∈ cands, 0 ≤ c.similarity_score ∧ c.similarity_score ≤ 1) :
    0 ≤ (fuse_results ml cands user_symptoms rdf_finder).final_score ∧
    (fuse_results ml cands user_symptoms rdf_finder).final_score ≤ 1 := by
  have hs1 : 0 ≤ (agreementStep ml cands).1 ∧ (agreementStep ml cands).1 ≤ 1 := by
    unfold agreementStep
    by_cases hk : kg_agrees ml cands
    · simp only [hk, if_true]
      exact ⟨le_min (by norm_num) (by linarith), min_le_left _ _⟩
    · simp [hk, h0, h1]
  have hs2 : 0 ≤ (sanityStep ml user_symptoms rdf_finder (agreementStep ml cands)).1 ∧
      (sanityStep ml user_symptoms rdf_finder (agreementStep ml cands)).1 ≤ 1 := by
    obtain ⟨ha, hb⟩ := hs1
    cases rdf_finder with
    | none => simpa [sanityStep] using ⟨ha, hb⟩
    | some get_primary =>
      by_cases hempty : (get_primary ml.disease_id).isEmpty
      · simpa [sanityStep, hempty] using ⟨ha, hb⟩
      · by_cases hprop : ∃ x ∈ get_primary ml.disease_id, ∃ a ∈ user_symptoms,
            lowerStr a = lowerStr x
        · simpa [sanityStep, hempty, hprop] using ⟨ha, hb⟩
        · have heq : (sanityStep ml user_symptoms (some get_primary)
              (agreementStep ml cands)).1 = (agreementStep ml cands).1 * (1/2) := by
            simp [sanityStep, hempty, hprop]
          rw [heq]
          constructor
          · exact mul_nonneg ha (by norm_num)
          · linarith
  obtain ⟨ha2, hb2⟩ := hs2
  unfold fuse_results
  cases cands with
  | nil => simpa [fallbackStep] using ⟨ha2, hb2⟩
  | cons top rest =>
    by_cases hlt :
        (sanityStep ml user_symptoms rdf_finder (agreementStep ml (top :: rest))).1 < 2/5
    · simpa [fallbackStep, hlt] using hc top (by simp)
    · simpa [fallbackStep, hlt] using ⟨ha2, hb2⟩

/-- Closed witness for `fuse_results_score_bounds`. -/
theorem fuse_results_score_bounds_witness :
    0 ≤ (fuse_results ⟨"Flu", 1/2⟩ [⟨"Measles", 3/4⟩] ["cough"] none).final_score ∧
    (fuse_results ⟨"Flu", 1/2⟩ [⟨"Measles", 3/4⟩] ["cough"] none).final_score ≤ 1 :=
  fuse_results_score_bounds ⟨"Flu", 1/2⟩ [⟨"Measles", 3/4⟩] ["cough"] none
    (by norm_num) (by norm_num) (by simp; norm_num)

/-- C10: calling `fuse_results` without a symptom lookup (`rdf_finder = none`)
skips the sanity step entirely: the result does not depend on the query
symptoms, the running score passes through the sanity step unchanged, and no
sanity-related trace entry (neither the penalty nor the confirmation) appears
in the reasoning trace. -/
theorem fuse_results_no_finder (ml : MLPrediction) (cands : List RDFCandidate)
    (user_symptoms : List String) :
    fuse_results ml cands user_symptoms none = fuse_results ml cands [] none ∧
    (∀ state : ℚ × List String, sanityStep ml user_symptoms none state = state) ∧
    (∀ m ∈ (fuse_results ml cands user_symptoms none).reasoning,
      m ≠ has_primary_msg ∧ ∀ d e, m ≠ missing_primary_msg d e) := by
  refine ⟨rfl, fun state => rfl, ?_⟩
  intro m hm
  have hmem : m = kg_agree_msg ∨ m = kg_disagree_msg ∨ m = fallback_msg := by
    have hr : (fuse_results ml cands user_symptoms none).reasoning =
        (agreementStep ml cands).2 ++
          (if (fuse_results ml cands user_symptoms none).is_fallback then [fallback_msg]
           else []) := by
      unfold fuse_results fallbackStep sanityStep
      cases cands with
      | nil => simp
      | cons top rest =>
        by_cases hlt : (agreementStep ml (top :: rest)).1 < 2/5
        · simp [hlt]
        · simp [hlt]
    rw [hr] at hm
    rcases List.mem_append.mp hm with h | h
    · unfold agreementStep at h
      by_cases hk : kg_agrees ml cands
      · simp [hk] at h
        exact Or.inl h
      · simp [hk] at h
        exact Or.inr (Or.inl h)
    · right
      right
      split at h
      · simpa using h
      · exact absurd h (by simp)
  rcases hmem with rfl | rfl | rfl
  · exact ⟨by decide, ne_missing_primary_msg _ (by decide)⟩
  · exact ⟨by decide, ne_missing_primary_msg _ (by decide)⟩
  · exact ⟨by decide, ne_missing_primary_msg _ (by decide)⟩

/-- Closed witness for `fuse_results_no_finder`. -/
theorem fuse_results_no_finder_witness :
    kg_disagree_msg ≠ has_primary_msg ∧
      ∀ d e, kg_disagree_msg ≠ missing_primary_msg d e :=
  (fuse_results_no_finder ⟨"Flu", 1⟩ [] ["cough"]).2.2 kg_disagree_msg
    (by norm_num [fuse_results, fallbackStep, sanityStep, agreementStep, kg_agrees])

lemma charListLt_trichotomy : ∀ a b : List Char,
    charListLt a b = true ∨ charListLt b a = true ∨ a = b
  | [], [] => Or.inr (Or.inr rfl)
  | [], _ :: _ => Or.inl rfl
  | _ :: _, [] => Or.inr (Or.inl rfl)
  | x :: xs, y :: ys => by
    rcases lt_trichotomy x y with h | h | h
    · exact Or.inl (by simp [charListLt, h])
    · subst h
      rcases charListLt_trichotomy xs ys with h2 | h2 | h2
      · exact Or.inl (by simp [charListLt, h2])
      · exact Or.inr (Or.inl (by simp [charListLt, h2]))
      · exact Or.inr (Or.inr (by rw [h2]))
    · exact Or.inr (Or.inl (by simp [charListLt, h]))

lemma charListLt_trans : ∀ a b c : List Char,
    charListLt a b = true → charListLt b c = true → charListLt a c = true
  | [], [], _ => by simp [charListLt]
  | _ :: _, [], _ => by simp [charListLt]
  | [], _ :: _, _ :: _ => by simp [charListLt]
  | a, b :: bs, [] => by simp [charListLt]
  | x :: xs, y :: ys, z :: zs => by
    simp only [charListLt, Bool.or_eq_true, Bool.and_eq_true, beq_iff_eq, decide_eq_true_eq]
    rintro (hxy | ⟨rfl, hxy⟩) (hyz | ⟨rfl, hyz⟩)
    · exact Or.inl (lt_trans hxy hyz)
    · exact Or.inl hxy
    · exact Or.inl hyz
    · exact Or.inr ⟨rfl, charListLt_trans xs ys zs hxy hyz⟩

lemma charListLt_asymm : ∀ a b : List Char,
    charListLt a b = true → charListLt b a = false
  | [], [] => by simp [charListLt]
  | [], _ :: _ => by simp [charListLt]
  | _ :: _, [] => by simp [charListLt]
  | x :: xs, y :: ys => by
    simp only [charListLt, Bool.or_eq_true, Bool.and_eq_true, beq_iff_eq, decide_eq_true_eq,
      Bool.or_eq_false_iff, Bool.and_eq_false_iff]
    rintro (hxy | ⟨rfl, hxy⟩)
    · exact ⟨by simp [not_lt_of_lt hxy], Or.inl (by simp [ne_of_gt hxy])⟩
    · exact ⟨by simp, Or.inr (charListLt_asymm xs ys hxy)⟩

lemma strLe_total (a b : String) : strLe a b = true ∨ strLe b a = true := by
  rcases charListLt_trichotomy a.data b.data with h | h | h
  · exact Or.inl (by simp [strLe, h])
  · exact Or.inr (by simp [strLe, h])
  · exact Or.inl (by simp [strLe, h])

lemma strLe_trans (a b c : String) (hab : strLe a b = true) (hbc : strLe b c = true) :
    strLe a c = true := by
  simp only [strLe, Bool.or_eq_true, beq_iff_eq] at hab hbc ⊢
  rcases hab with hab | hab
  · rcases hbc with hbc | hbc
    · exact Or.inl (charListLt_trans _ _ _ hab hbc)
    · exact Or.inl (hbc ▸ hab)
  · rcases hbc with hbc | hbc
    · exact Or.inl (hab ▸ hbc)
    · exact Or.inr (hab.trans hbc)

lemma strLe_antisymm (a b : String) (hab : strLe a b = true) (hba : strLe b a = true) :
    a = b := by
  simp only [strLe, Bool.or_eq_true, beq_iff_eq] at hab hba
  rcases hab with hab | hab
  · rcases hba with hba | hba
    · exact absurd hba (by simp [charListLt_asymm _ _ hab])
    · exact (String.ext hba).symm
  · exact String.ext hab

/-- The order Python `sorted` uses on strings, as a `Prop` relation. -/
def strLeP (a b : String) : Prop := strLe a b = true

instance : DecidableRel strLeP := fun a b =>
  inferInstanceAs (Decidable (strLe a b = true))

instance : IsTrans String strLeP := ⟨fun a b c => strLe_trans a b c⟩

instance : IsAntisymm String strLeP := ⟨fun a b => strLe_antisymm a b⟩

instance : IsTotal String strLeP := ⟨fun a b => strLe_total a b⟩


/-! ### RDFDiseaseFinder (src/reasoning/rdf_disease_finder.py) -/

/-- One rdflib literal label: its text and its language tag (`""` models a
literal with no language tag). -/
structure RDFLabel where
  text : String
  language : String
deriving DecidableEq

/-- The dict `find_nearest_diseases` appends per candidate disease
(lines 142-150 of rdf_disease_finder.py). -/
structure MatchResult where
  disease_uri : String
  disease_name : String
  matched_symptoms : List String
  match_count : ℕ
  similarity_score : ℚ
  total_disease_symptoms : ℕ
  total_input_symptoms : ℕ
deriving DecidableEq

/-- The state of an `RDFDiseaseFinder` after `__init__`, reduced to what the
queries read:
* `symptom_uris`: the individuals typed with `ex:Symptom` or one of its
  subclasses, in graph iteration order (the nesting of the two loops of
  `find_symptom_uris` is irrelevant because the result is a set);
* `disease_symptoms`: the `_disease_symptoms_cache` built by
  `get_all_disease_symptoms` (a dict, so values are sets);
* `symptom_label` / `disease_label`: `get_symptom_label` and
  `get_disease_label`, deterministic per URI (cached `_get_label`),
  modelled as functions. -/
structure RDFDiseaseFinder where
  symptom_uris : List String
  disease_symptoms : List (String × Finset String)
  symptom_label : String → String
  disease_label : String → String

namespace RDFDiseaseFinder

/-- `RDFDiseaseFinder.normalize` (line 41):
`re.sub(r"[-_]+", " ", text.lower().strip())`. -/
def normalize (text : String) : String :=
  String.mk (collapseRuns (fun c => c == '-' || c == '_') ' ' false
    (trimChars (lowerStr text).toList))

/-- The local identifier fragment `uri_str.split("/")[-1]` (line 59): the
suffix after the last slash (the whole string when no slash occurs). -/
def localName (uri : String) : String :=
  String.mk ((uri.toList.reverse.takeWhile (fun c => c != '/')).reverse)

/-- `RDFDiseaseFinder._get_label` (lines 47-60).  The graph's
`skos:prefLabel` resp. `rdfs:label` objects for the entity are passed as the
two lists, in graph iteration order; the per-entity cache is transparent
(the function is deterministic per entity) and not modelled.  The code
accepts the first label carrying no language tag or the tag `"en"` and
otherwise falls back to the local identifier fragment. -/
def get_label (uri : String) (prefLabels rdfsLabels : List RDFLabel) : String :=
  match (prefLabels ++ rdfsLabels).find?
      (fun l => l.language == "" || l.language == "en") with
  | some l => l.text
  | none => localName uri

/-- `RDFDiseaseFinder.find_symptom_uris` (lines 72-89): a symptom individual
matches when its normalized label equals, contains, or is contained in some
normalized input label. -/
def find_symptom_uris (f : RDFDiseaseFinder) (symptom_labels : List String) :
    Finset String :=
  (f.symptom_uris.filter (fun u =>
    let label := normalize (f.symptom_label u)
    (symptom_labels.map normalize).any
      (fun s => s == label || strIn s label || strIn label s))).toFinset

/-- Ascending order along the Python sort key
`(-similarity_score, -match_count, disease_name)` of line 153: strictly
greater similarity score first, then strictly greater match count, then
lexicographically smaller disease label. -/
def result_order (a b : MatchResult) : Prop :=
  b.similarity_score < a.similarity_score ∨
    (a.similarity_score = b.similarity_score ∧
      (b.match_count < a.match_count ∨
        (a.match_count = b.match_count ∧ strLe a.disease_name b.disease_name = true)))

instance : DecidableRel result_order := fun _ _ =>
  inferInstanceAs (Decidable (_ ∨ _))

lemma result_order_trans (a b c : MatchResult) (hab : result_order a b)
    (hbc : result_order b c) : result_order a c := by
  rcases hab with hab | ⟨hs, hab⟩
  · rcases hbc with hbc | ⟨hs2, hbc⟩
    · exact Or.inl (lt_trans hbc hab)
    · exact Or.inl (hs2 ▸ hab)
  · rcases hbc with hbc | ⟨hs2, hbc⟩
    · exact Or.inl (hs ▸ hbc)
    · refine Or.inr ⟨hs.trans hs2, ?_⟩
      rcases hab with hab | ⟨hc, hab⟩
      · rcases hbc with hbc | ⟨hc2, hbc⟩
        · exact Or.inl (lt_trans hbc hab)
        · exact Or.inl (hc2 ▸ hab)
      · rcases hbc with hbc | ⟨hc2, hbc⟩
        · exact Or.inl (hc ▸ hbc)
        · exact Or.inr ⟨hc.trans hc2, strLe_trans _ _ _ hab hbc⟩

lemma result_order_total (a b : MatchResult) :
    result_order a b ∨ result_order b a := by
  rcases lt_trichotomy a.similarity_score b.similarity_score with h | h | h
  · exact Or.inr (Or.inl h)
  · rcases lt_trichotomy a.match_count b.match_count with h2 | h2 | h2
    · exact Or.inr (Or.inr ⟨h.symm, Or.inl h2⟩)
    · rcases strLe_total a.disease_name b.disease_name with h3 | h3
      · exact Or.inl (Or.inr ⟨h, Or.inr ⟨h2, h3⟩⟩)
      · exact Or.inr (Or.inr ⟨h.symm, Or.inr ⟨h2.symm, h3⟩⟩)
    · exact Or.inl (Or.inr ⟨h, Or.inl h2⟩)
  · exact Or.inl (Or.inl h)

instance : IsTrans MatchResult result_order := ⟨result_order_trans⟩

instance : IsTotal MatchResult result_order := ⟨result_order_total⟩

/-- The record built for one entry of the disease-symptom cache
(lines 130-150): `none` when the intersection with the resolved input
symptoms is empty. -/
def mkMatchResult (f : RDFDiseaseFinder) (input_symptoms : Finset String)
    (use_jaccard : Bool) (p : String × Finset String) : Option MatchResult :=
  let ds := p.2
  let intersection := input_symptoms ∩ ds
  if intersection = ∅ then none
  else
    let union := input_symptoms ∪ ds
    let score : ℚ :=
      if use_jaccard ∧ union ≠ ∅ then (intersection.card : ℚ) / union.card
      else (intersection.card : ℚ) / input_symptoms.card
    some
      { disease_uri := p.1
        disease_name := f.disease_label p.1
        matched_symptoms :=
          List.insertionSort strLeP ((intersection.sort strLeP).map f.symptom_label)
        match_count := intersection.card
        similarity_score := score
        total_disease_symptoms := ds.card
        total_input_symptoms := input_symptoms.card }

/-- `RDFDiseaseFinder.find_nearest_diseases` (lines 115-156).  Python's
stable `list.sort` is modelled by the stable `List.insertionSort`; the final
line `results[:top_k] if top_k else results` truncates only when `top_k` is
given and non-zero (`0` is falsy in Python, like `None`). -/
def find_nearest_diseases (f : RDFDiseaseFinder) (symptoms : List String)
    (top_k : Option ℕ := none) (use_jaccard : Bool := true) : List MatchResult :=
  let input_symptoms := find_symptom_uris f symptoms
  if input_symptoms = ∅ then []
  else
    let results := f.disease_symptoms.filterMap (mkMatchResult f input_symptoms use_jaccard)
    let sorted := List.insertionSort result_order results
    match top_k with
    | some k => if k = 0 then sorted else sorted.take k
    | none => sorted

/-- The final `results[:top_k]` slice of `find_nearest_diseases`, relative to
the untruncated run. -/
lemma find_nearest_diseases_truncation (f : RDFDiseaseFinder) (symptoms : List String)
    (top_k : Option ℕ) (use_jaccard : Bool) :
    find_nearest_diseases f symptoms top_k use_jaccard =
      (match top_k with
       | some k =>
         if k = 0 then find_nearest_diseases f symptoms none use_jaccard
         else (find_nearest_diseases f symptoms none use_jaccard).take k
       | none => find_nearest_diseases f symptoms none use_jaccard) := by
  unfold find_nearest_diseases
  by_cases hin : find_symptom_uris f symptoms = ∅
  · cases top_k with
    | none => simp [hin]
    | some k => by_cases hk : k = 0 <;> simp [hin, hk]
  · cases top_k with
    | none => simp [hin]
    | some k => by_cases hk : k = 0 <;> simp [hin, hk]

lemma find_nearest_diseases_none_sorted (f : RDFDiseaseFinder)
    (symptoms : List String) (use_jaccard : Bool) :
    List.Pairwise result_order (find_nearest_diseases f symptoms none use_jaccard) := by
  unfold find_nearest_diseases
  by_cases hin : find_symptom_uris f symptoms = ∅
  · simp [hin]
  · simp only [hin, ite_false]
    exact List.sorted_insertionSort result_order _

lemma mem_find_nearest_diseases_none (f : RDFDiseaseFinder) (symptoms : List String)
    (use_jaccard : Bool) (r : MatchResult) :
    r ∈ find_nearest_diseases f symptoms none use_jaccard ↔
      ∃ p ∈ f.disease_symptoms,
        mkMatchResult f (find_symptom_uris f symptoms) use_jaccard p = some r := by
  unfold find_nearest_diseases
  by_cases hin : find_symptom_uris f symptoms = ∅
  · simp only [hin, ite_true, List.not_mem_nil, false_iff]
    rintro ⟨p, hp, hmk⟩
    simp [mkMatchResult] at hmk
  · simp only [hin, ite_false]
    rw [(List.perm_insertionSort result_order _).mem_iff, List.mem_filterMap]

end RDFDiseaseFinder

/-- A one-disease, one-symptom finder used to instantiate the theorems on
concrete data: Measles with symptom fever. -/
def exampleFinder : RDFDiseaseFinder where
  symptom_uris := ["http://uu.nl/medical/Fever"]
  disease_symptoms := [("http://uu.nl/medical/Measles", {"http://uu.nl/medical/Fever"})]
  symptom_label := fun _ => "fever"
  disease_label := fun _ => "Measles"

namespace RDFDiseaseFinder

/-- C5: every returned result has a non-zero match count and carries the
declared similarity score (Jaccard against the union when `use_jaccard`,
else coverage of the resolved query), and a disease appears in the output
exactly when its cached symptom set meets the resolved query symptom set. -/
theorem find_nearest_diseases_matches (f : RDFDiseaseFinder) (symptoms : List String)
    (use_jaccard : Bool) :
    (∀ top_k r, r ∈ find_nearest_diseases f symptoms top_k use_jaccard →
      r.match_count ≠ 0 ∧
      r.similarity_score =
        (if use_jaccard then
          (r.match_count : ℚ) /
            ((r.total_input_symptoms + r.total_disease_symptoms - r.match_count : ℕ) : ℚ)
         else (r.match_count : ℚ) / (r.total_input_symptoms : ℚ))) ∧
    (∀ d, (∃ r ∈ find_nearest_diseases f symptoms none use_jaccard, r.disease_uri = d) ↔
      ∃ ds, (d, ds) ∈ f.disease_symptoms ∧
        (find_symptom_uris f symptoms ∩ ds).Nonempty) := by
  constructor
  · intro top_k r hr
    have hr0 : r ∈ find_nearest_diseases f symptoms none use_jaccard := by
      rw [find_nearest_diseases_truncation] at hr
      cases top_k with
      | none => exact hr
      | some k =>
        by_cases hk : k = 0
        · simpa [hk] using hr
        · simp only [hk, ite_false] at hr
          exact List.mem_of_mem_take hr
    obtain ⟨p, hp, hmk⟩ := (mem_find_nearest_diseases_none f symptoms use_jaccard r).mp hr0
    by_cases hie : find_symptom_uris f symptoms ∩ p.2 = ∅
    · simp [mkMatchResult, hie] at hmk
    · have hne : (find_symptom_uris f symptoms ∩ p.2).Nonempty :=
        Finset.nonempty_iff_ne_empty.mpr hie
      have hu : find_symptom_uris f symptoms ∪ p.2 ≠ ∅ :=
        Finset.nonempty_iff_ne_empty.mp
          (hne.mono ((Finset.inter_subset_left).trans Finset.subset_union_left))
      simp only [mkMatchResult, hie, ite_false, Option.some.injEq] at hmk
      subst hmk
      refine ⟨by simpa using Finset.card_ne_zero_of_mem hne.choose_spec, ?_⟩
      have hcard : (find_symptom_uris f symptoms ∪ p.2).card =
          (find_symptom_uris f symptoms).card + p.2.card -
            (find_symptom_uris f symptoms ∩ p.2).card := by
        have := Finset.card_union_add_card_inter (find_symptom_uris f symptoms) p.2
        omega
      cases use_jaccard with
      | true => simp [hu, hcard]
      | false => simp
  · intro d
    constructor
    · rintro ⟨r, hr, rfl⟩
      obtain ⟨p, hp, hmk⟩ :=
        (mem_find_nearest_diseases_none f symptoms use_jaccard r).mp hr
      by_cases hie : find_symptom_uris f symptoms ∩ p.2 = ∅
      · simp [mkMatchResult, hie] at hmk
      · simp only [mkMatchResult, hie, ite_false, Option.some.injEq] at hmk
        subst hmk
        exact ⟨p.2, by simpa using hp, Finset.nonempty_iff_ne_empty.mpr hie⟩
    · rintro ⟨ds, hmem, hne⟩
      have hie : find_symptom_uris f symptoms ∩ ds ≠ ∅ :=
        Finset.nonempty_iff_ne_empty.mp hne
      have hsome : (mkMatchResult f (find_symptom_uris f symptoms) use_jaccard
          (d, ds)).isSome := by
        simp [mkMatchResult, hie]
      obtain ⟨r, hmk⟩ := Option.isSome_iff_exists.mp hsome
      refine ⟨r, (mem_find_nearest_diseases_none f symptoms use_jaccard r).mpr
        ⟨(d, ds), hmem, hmk⟩, ?_⟩
      simp only [mkMatchResult, hie, ite_false, Option.some.injEq] at hmk
      subst hmk
      rfl

/-- Closed witness for `find_nearest_diseases_matches`: in the example graph
the query "fever" returns Measles, with a non-zero match count. -/
theorem find_nearest_diseases_matches_witness :
    ∃ r ∈ find_nearest_diseases exampleFinder ["fever"] none true,
      r.disease_uri = "http://uu.nl/medical/Measles" ∧ r.match_count ≠ 0 := by
  obtain ⟨r, hr, hd⟩ :=
    ((find_nearest_diseases_matches exampleFinder ["fever"] true).2
      "http://uu.nl/medical/Measles").mpr
      ⟨{"http://uu.nl/medical/Fever"}, by decide, by decide⟩
  exact ⟨r, hr, hd,
    ((find_nearest_diseases_matches exampleFinder ["fever"] true).1 none r hr).1⟩

/-- C6 counterexample: with `top_k = 0` the Python slice guard
`if top_k` is falsy, so the result is NOT truncated to the first 0 elements:
on the example graph the untruncated single result comes back. -/
theorem find_nearest_diseases_topk_zero_counterexample :
    find_nearest_diseases exampleFinder ["fever"] (some 0) true ≠
      (find_nearest_diseases exampleFinder ["fever"] none true).take 0 := by
  simp only [List.take_zero]
  decide

/-- C6 (amended): the output of `find_nearest_diseases` is sorted by
descending similarity score, then descending match count, then ascending
disease label, for every `top_k`; when `top_k` is given and non-zero the
output is the first `top_k` elements of the untruncated output, and when
`top_k = 0` (falsy in Python, like `None`) the output is untruncated. -/
theorem find_nearest_diseases_sorted (f : RDFDiseaseFinder) (symptoms : List String)
    (top_k : Option ℕ) (use_jaccard : Bool) :
    List.Pairwise result_order (find_nearest_diseases f symptoms top_k use_jaccard) ∧
    (∀ k : ℕ, k ≠ 0 →
      find_nearest_diseases f symptoms (some k) use_jaccard =
        (find_nearest_diseases f symptoms none use_jaccard).take k) ∧
    find_nearest_diseases f symptoms (some 0) use_jaccard =
      find_nearest_diseases f symptoms none use_jaccard := by
  refine ⟨?_, ?_, ?_⟩
  · rw [find_nearest_diseases_truncation]
    cases top_k with
    | none => exact find_nearest_diseases_none_sorted f symptoms use_jaccard
    | some k =>
      by_cases hk : k = 0
      · simpa [hk] using find_nearest_diseases_none_sorted f symptoms use_jaccard
      · simp only [hk, ite_false]
        exact List.Pairwise.sublist (List.take_sublist k _)
          (find_nearest_diseases_none_sorted f symptoms use_jaccard)
  · intro k hk
    rw [find_nearest_diseases_truncation]
    simp [hk]
  · rw [find_nearest_diseases_truncation]
    simp

/-- Closed witness for `find_nearest_diseases_sorted`. -/
theorem find_nearest_diseases_sorted_witness :
    find_nearest_diseases exampleFinder ["fever"] (some 1) true =
      (find_nearest_diseases exampleFinder ["fever"] none true).take 1 :=
  (find_nearest_diseases_sorted exampleFinder ["fever"] (some 1) true).2.1 1
    (by decide)

/-- C8 counterexample: an entity whose only label carries the language tag
"nl" does NOT get that label; `_get_label` skips every label that is neither
untagged nor tagged "en" and falls back to the local identifier fragment. -/
theorem get_label_any_label_counterexample :
    get_label "http://uu.nl/medical/Koorts" [⟨"koorts", "nl"⟩] [] = "Koorts" ∧
    localName "http://uu.nl/medical/Koorts" = "Koorts" ∧
    "Koorts" ≠ "koorts" := by
  refine ⟨by decide, by decide, by decide⟩

/-- C8 (amended): `_get_label` returns the text of the first label among the
`skos:prefLabel` objects then the `rdfs:label` objects whose language tag is
empty or "en" — preferred labels take priority — and falls back to the local
identifier fragment exactly when no label qualifies (in particular when all
labels carry a non-English tag). -/
theorem get_label_fallback_chain (uri : String) (prefLabels rdfsLabels : List RDFLabel) :
    ((∃ l ∈ prefLabels ++ rdfsLabels, l.language = "" ∨ l.language = "en") →
      ∃ l ∈ prefLabels ++ rdfsLabels, (l.language = "" ∨ l.language = "en") ∧
        get_label uri prefLabels rdfsLabels = l.text) ∧
    ((∃ l ∈ prefLabels, l.language = "" ∨ l.language = "en") →
      ∃ l ∈ prefLabels, (l.language = "" ∨ l.language = "en") ∧
        get_label uri prefLabels rdfsLabels = l.text) ∧
    ((∀ l ∈ prefLabels ++ rdfsLabels, l.language ≠ "" ∧ l.language ≠ "en") →
      get_label uri prefLabels rdfsLabels = localName uri) := by
  refine ⟨?_, ?_, ?_⟩
  · intro hex
    cases hfind : (prefLabels ++ rdfsLabels).find?
        (fun l => l.language == "" || l.language == "en") with
    | none =>
      obtain ⟨l, hl, hlang⟩ := hex
      have := List.find?_eq_none.mp hfind l hl
      simp only [Bool.or_eq_true, beq_iff_eq] at this
      exact absurd hlang this
    | some l =>
      refine ⟨l, List.mem_of_find?_eq_some hfind, ?_, ?_⟩
      · have := List.find?_some hfind
        simpa using this
      · unfold get_label
        rw [hfind]
  · intro hex
    cases hfind : prefLabels.find?
        (fun l => l.language == "" || l.language == "en") with
    | none =>
      obtain ⟨l, hl, hlang⟩ := hex
      have := List.find?_eq_none.mp hfind l hl
      simp only [Bool.or_eq_true, beq_iff_eq] at this
      exact absurd hlang this
    | some l =>
      refine ⟨l, List.mem_of_find?_eq_some hfind, ?_, ?_⟩
      · have := List.find?_some hfind
        simpa using this
      · unfold get_label
        rw [List.find?_append, hfind]
        rfl
  · intro hall
    have hfind : (prefLabels ++ rdfsLabels).find?
        (fun l => l.language == "" || l.language == "en") = none := by
      rw [List.find?_eq_none]
      intro l hl
      simp only [Bool.or_eq_true, beq_iff_eq, not_or]
      exact ⟨(hall l hl).1, (hall l hl).2⟩
    unfold get_label
    rw [hfind]

/-- Closed witness for `get_label_fallback_chain`: a single English
`skos:prefLabel` is returned. -/
theorem get_label_fallback_chain_witness :
    ∃ l ∈ ([⟨"fever", "en"⟩] : List RDFLabel) ++ [],
      (l.language = "" ∨ l.language = "en") ∧
      get_label "http://uu.nl/medical/Fever" [⟨"fever", "en"⟩] [] = l.text :=
  (get_label_fallback_chain "http://uu.nl/medical/Fever" [⟨"fever", "en"⟩] []).1
    ⟨⟨"fever", "en"⟩, by decide, Or.inr rfl⟩

end RDFDiseaseFinder

/-! ### SymptomCanonicalizer (src/synonyms/SynonymsCanon.py) -/

/-- A regex word character `\w` (ASCII portion: alphanumeric or underscore). -/
def isWordChar (c : Char) : Bool := c.isAlphanum || c == '_'

/-- `normalize_text` (lines 13-18): lowercase, strip, replace every character
outside `\w`, whitespace and `-` by a space, then collapse whitespace runs to
a single space. -/
def normalize_text (s : String) : String :=
  let l := trimChars (lowerStr s).toList
  let l := l.map (fun c => if isWordChar c || c.isWhitespace || c == '-' then c else ' ')
  String.mk (collapseRuns Char.isWhitespace ' ' false l)

/-- An entry of the `candidates` list `canonicalize_one` builds
(line 92): FAISS row id, the meta entry's text, the similarity score. -/
structure CanonCandidate where
  id : ℕ
  text : String
  score : ℚ
deriving DecidableEq

/-- The dict `canonicalize_one` returns (lines 60-69 and 106-114).  The
source key `match` is a reserved word in Lean and is embedded as `matched`;
meta entries are modelled by their `text` field, so `matched` holds the
matched meta text. -/
structure CanonResult where
  input : String
  normalized : String
  accepted : Bool
  matched : Option String
  score : Option ℚ
  ambiguous : Bool
  candidates : List CanonCandidate
deriving DecidableEq

/-- The state of a `SymptomCanonicalizer`: the two thresholds, the meta list
(each entry modelled by its `"text"` value), and `search`, which models
`self.index.search(self._embed(phrase), k)` returning one `(id, score)` pair
per rank.  FAISS returns rows sorted by decreasing score and, thanks to the
`__init__` sanity check `index.ntotal == len(meta)`, ids below `meta`'s
length; theorems state these contract facts as hypotheses where needed. -/
structure SymptomCanonicalizer where
  accept_threshold : ℚ
  ambiguity_delta : ℚ
  meta : List String
  search : String → ℕ → List (ℕ × ℚ)

namespace SymptomCanonicalizer

/-- `SymptomCanonicalizer.canonicalize_one` (lines 58-114). -/
def canonicalize_one (C : SymptomCanonicalizer) (phrase : String) (k : ℕ := 2) :
    CanonResult :=
  let original := phrase
  let phrase := normalize_text phrase
  if phrase = "" then
    { input := original, normalized := phrase, accepted := false, matched := none,
      score := none, ambiguous := false, candidates := [] }
  else
    let hits := C.search phrase k
    let candidates := hits.map (fun h =>
      { id := h.1, text := C.meta.getD h.1 "", score := h.2 : CanonCandidate })
    let top1 := candidates.headD ⟨0, "", 0⟩
    let top1_score := top1.score
    let ambiguous :=
      if 2 ≤ k then
        decide (top1_score - (candidates.getD 1 ⟨0, "", 0⟩).score < C.ambiguity_delta)
      else false
    let accepted := decide (C.accept_threshold ≤ top1_score) && !ambiguous
    let matched := if accepted then some (C.meta.getD top1.id "") else none
    { input := original, normalized := phrase, accepted := accepted, matched := matched,
      score := if accepted then some top1_score else none,
      ambiguous := ambiguous, candidates := candidates }

end SymptomCanonicalizer

lemma exists_cons_cons_of_two_le_length {α : Type} {l : List α} (h : 2 ≤ l.length) :
    ∃ a b t, l = a :: b :: t := by
  cases l with
  | nil => simp at h
  | cons a t =>
    cases t with
    | nil => simp at h
    | cons b u => exact ⟨a, b, u, rfl⟩

namespace SymptomCanonicalizer

/-- C7: `canonicalize_one` is total; the empty normalized phrase yields the
non-accepted, candidate-free result; otherwise, with the FAISS contract
(`k` rows, sorted by decreasing score) the first two candidates are the two
highest-scoring ones, the `ambiguous` flag holds exactly when their score
difference is below `ambiguity_delta`, and `accepted` holds exactly when the
top score reaches `accept_threshold` and the result is not ambiguous. -/
theorem canonicalize_one_policy (C : SymptomCanonicalizer) (phrase : String) (k : ℕ)
    (hk : 2 ≤ k) (hlen : (C.search (normalize_text phrase) k).length = k)
    (hsorted : List.Pairwise (fun a b : ℕ × ℚ => b.2 ≤ a.2)
      (C.search (normalize_text phrase) k)) :
    (normalize_text phrase = "" →
      canonicalize_one C phrase k =
        { input := phrase, normalized := normalize_text phrase, accepted := false,
          matched := none, score := none, ambiguous := false, candidates := [] }) ∧
    (normalize_text phrase ≠ "" →
      ∃ top1 top2 rest,
        (canonicalize_one C phrase k).candidates = top1 :: top2 :: rest ∧
        (∀ c ∈ (canonicalize_one C phrase k).candidates, c.score ≤ top1.score) ∧
        (∀ c ∈ top2 :: rest, c.score ≤ top2.score) ∧
        ((canonicalize_one C phrase k).ambiguous = true ↔
          top1.score - top2.score < C.ambiguity_delta) ∧
        ((canonicalize_one C phrase k).accepted = true ↔
          C.accept_threshold ≤ top1.score ∧
            ¬(top1.score - top2.score < C.ambiguity_delta))) := by
  constructor
  · intro hp
    simp [canonicalize_one, hp]
  · intro hp
    obtain ⟨h1, h2, hs, hhits⟩ :=
      exists_cons_cons_of_two_le_length
        (l := C.search (normalize_text phrase) k) (by omega)
    have hcand : (canonicalize_one C phrase k).candidates =
        ({ id := h1.1, text := C.meta.getD h1.1 "", score := h1.2 } :
            CanonCandidate) ::
          ({ id := h2.1, text := C.meta.getD h2.1 "", score := h2.2 } :
            CanonCandidate) ::
          hs.map (fun h =>
            { id := h.1, text := C.meta.getD h.1 "", score := h.2 : CanonCandidate }) := by
      simp [canonicalize_one, hp, hhits]
    have hamb : (canonicalize_one C phrase k).ambiguous =
        decide (h1.2 - h2.2 < C.ambiguity_delta) := by
      simp [canonicalize_one, hp, hhits, hk]
    have hacc : (canonicalize_one C phrase k).accepted =
        (decide (C.accept_threshold ≤ h1.2) &&
          !(decide (h1.2 - h2.2 < C.ambiguity_delta))) := by
      simp [canonicalize_one, hp, hhits, hk]
    rw [hhits] at hsorted
    obtain ⟨hfst, hrest⟩ := List.pairwise_cons.mp hsorted
    obtain ⟨hsnd, _⟩ := List.pairwise_cons.mp hrest
    refine ⟨_, _, _, hcand, ?_, ?_, ?_, ?_⟩
    · intro c hc
      rw [hcand] at hc
      simp only [List.mem_cons] at hc
      rcases hc with rfl | rfl | hc
      · simp
      · simpa using hfst h2 (by simp)
      · obtain ⟨h, hh, rfl⟩ := List.mem_map.mp hc
        simpa using hfst h (by simp [hh])
    · intro c hc
      simp only [List.mem_cons] at hc
      rcases hc with rfl | hc
      · simp
      · obtain ⟨h, hh, rfl⟩ := List.mem_map.mp hc
        simpa using hsnd h hh
    · rw [hamb]
      simp
    · rw [hacc]
      simp


/-- A two-entry canonicalizer used to instantiate the theorems on concrete
data; the oracle returns scores 1 and 0 for every phrase. -/
def exampleCanon : SymptomCanonicalizer where
  accept_threshold := 62/100
  ambiguity_delta := 8/100
  meta := ["fever", "cough"]
  search := fun _ _ => [(0, 1), (1, 0)]

/-- Closed witness for `canonicalize_one_policy`: with top scores 1 and 0 the
example phrase is unambiguous and accepted. -/
theorem canonicalize_one_policy_witness :
    (canonicalize_one exampleCanon "fever" 2).ambiguous = false ∧
    (canonicalize_one exampleCanon "fever" 2).accepted = true := by
  obtain ⟨c1, c2, rest, hcand, hb1, hb2, hamb, hacc⟩ :=
    (canonicalize_one_policy exampleCanon "fever" 2 (by norm_num) (by decide)
      (by norm_num [exampleCanon, List.pairwise_cons])).2 (by decide)
  have hc : (canonicalize_one exampleCanon "fever" 2).candidates =
      [⟨0, "fever", 1⟩, ⟨1, "cough", 0⟩] := by decide
  rw [hc] at hcand
  obtain ⟨rfl, rfl, -⟩ : c1 = ⟨0, "fever", 1⟩ ∧ c2 = ⟨1, "cough", 0⟩ ∧ rest = [] := by
    have h1 := hcand
    simp only [List.cons.injEq] at h1
    exact ⟨h1.1.symm, h1.2.1.symm, h1.2.2.symm⟩
  constructor
  · rw [Bool.eq_false_iff]
    intro hfalse
    have := hamb.mp hfalse
    norm_num [exampleCanon] at this
  · exact hacc.mpr ⟨by norm_num [exampleCanon], by norm_num [exampleCanon]⟩

/-- The gap between the scores of the first two candidates `canonicalize_one`
builds, independent of the two thresholds. -/
def topGap (meta : List String) (search : String → ℕ → List (ℕ × ℚ))
    (phrase : String) (k : ℕ) : ℚ :=
  let candidates := (search (normalize_text phrase) k).map (fun h =>
    { id := h.1, text := meta.getD h.1 "", score := h.2 : CanonCandidate })
  (candidates.headD ⟨0, "", 0⟩).score - (candidates.getD 1 ⟨0, "", 0⟩).score

lemma canonicalize_one_ambiguous_eq (C : SymptomCanonicalizer) (phrase : String)
    (k : ℕ) :
    (canonicalize_one C phrase k).ambiguous =
      if normalize_text phrase = "" then false
      else if 2 ≤ k then decide (topGap C.meta C.search phrase k < C.ambiguity_delta)
      else false := by
  by_cases hp : normalize_text phrase = ""
  · simp [canonicalize_one, hp]
  · by_cases hk : 2 ≤ k
    · simp [canonicalize_one, topGap, hp, hk]
    · simp [canonicalize_one, hp, hk]

/-- C9: raising `ambiguity_delta` (with the phrase, the oracle, the meta list
and `accept_threshold` fixed) never turns an ambiguous result unambiguous:
the set of ambiguous results is monotone in the threshold. -/
theorem canonicalize_one_ambiguity_monotone (accept_threshold : ℚ)
    (meta : List String) (search : String → ℕ → List (ℕ × ℚ))
    (phrase : String) (k : ℕ) (dlo dhi : ℚ) (hd : dlo ≤ dhi)
    (hamb : (canonicalize_one ⟨accept_threshold, dlo, meta, search⟩
      phrase k).ambiguous = true) :
    (canonicalize_one ⟨accept_threshold, dhi, meta, search⟩ phrase k).ambiguous = true := by
  rw [canonicalize_one_ambiguous_eq] at hamb ⊢
  by_cases hp : normalize_text phrase = ""
  · simp [hp] at hamb
  · by_cases hk : 2 ≤ k
    · simp only [hp, ite_false, hk, ite_true, decide_eq_true_eq] at hamb ⊢
      exact lt_of_lt_of_le hamb hd
    · simp [hp, hk] at hamb

/-- Closed witness for `canonicalize_one_ambiguity_monotone`: tied scores are
ambiguous at delta 1/10 and stay ambiguous at delta 2/10. -/
theorem canonicalize_one_ambiguity_monotone_witness :
    (canonicalize_one ⟨62/100, 2/10, ["fever"], fun _ _ => [(0, 0), (0, 0)]⟩
      "fever" 2).ambiguous = true :=
  canonicalize_one_ambiguity_monotone (62/100) ["fever"] (fun _ _ => [(0, 0), (0, 0)])
    "fever" 2 (1/10) (2/10) (by norm_num)
    (by
      have hn : normalize_text "fever" = "fever" := rfl
      rw [canonicalize_one_ambiguous_eq, hn]
      rw [if_neg (by decide : ¬("fever" : String) = "")]
      norm_num [topGap])

end SymptomCanonicalizer
